import Mathlib

/-!
Shallow embedding of the rc-zip entry-decoding core:
the raw-entry byte limiter and Store codec (rc-zip-sync/src/decoder.rs),
the entry-decoding state machine (src/reader/tokio/entry_reader/mod.rs),
the driver over a consumable FSM (rc-zip-tokio/src/entry_reader.rs),
and the sliceable-source cursors (rc-zip-sync/src/read_zip.rs).
Stateful Rust code is translated into explicit state passing; machine
integers become Nat with explicit reductions modulo powers of two where
overflow can matter; fallible code returns Except.
-/

namespace RcZip

/-- A byte, as an unbounded natural; real bytes satisfy b < 256. -/
abbrev Byte := Nat

/-- Kinds of I/O errors surfaced by the underlying byte source. -/
inductive IOError where
  | unexpectedEof
  | other (code : Nat)
deriving DecidableEq

/-- Structural format violations, following the error taxonomy of the crate. -/
inductive FormatError where
  | invalidLocalHeader
  | wrongSize (expected actual : Nat)
  | wrongChecksum (expected actual : Nat)
deriving DecidableEq

/-- Top-level error type: I/O, format, or unsupported-feature errors.
The unsupported constructor carries the numeric compression method tag,
as built by Error.method_not_supported. -/
inductive Error where
  | io (e : IOError)
  | format (e : FormatError)
  | unsupported (method : Nat)
deriving DecidableEq

/-- Modelled from the spec: the byte-ring buffer (component A, backed by the
external oval crate). Data occupies the region from pos to pos plus the
length of data inside storage of size capacity; space is the tail region. -/
structure Buffer where
  capacity : Nat
  pos : Nat
  data : List Byte
deriving DecidableEq

/-- Readable byte count of the buffer. -/
def Buffer.availableData (b : Buffer) : Nat := b.data.length

/-- Writable byte count at the tail of the buffer. -/
def Buffer.availableSpace (b : Buffer) : Nat := b.capacity - (b.pos + b.data.length)

/-- Modelled from the spec: shift moves the data region to offset 0,
maximizing contiguous space; the data itself is unchanged. -/
def Buffer.shift (b : Buffer) : Buffer := { b with pos := 0 }

/-- Modelled from the spec: writing bytes into the space region and then
advancing the tail with fill(n). -/
def Buffer.fill (b : Buffer) (bs : List Byte) : Buffer := { b with data := b.data ++ bs }

/-- Modelled from the spec: consume advances the head past n bytes of data. -/
def Buffer.consume (b : Buffer) (n : Nat) : Buffer :=
  { capacity := b.capacity, pos := b.pos + n, data := b.data.drop n }

/-- Modelled from the spec: reading from the buffer copies at most len bytes
out of the data region and consumes them (the Read impl of the byte-ring). -/
def Buffer.readInto (b : Buffer) (len : Nat) : List Byte × Buffer :=
  let n := min len b.availableData
  (b.data.take n, b.consume n)

/-- Modelled from the spec: StoredEntryInner, the sizes/crc/offset record of
a central-directory entry after ZIP64 upgrade (all sizes 64-bit). -/
structure StoredEntryInner where
  compressed_size : Nat
  uncompressed_size : Nat
  crc32 : Nat
  header_offset : Nat
  is_zip64 : Bool
deriving DecidableEq

/-- Modelled from the spec: the fields of LocalFileHeaderRecord that the
entry FSM consults (general-purpose flags, CRC-32, sizes). -/
structure LocalFileHeaderRecord where
  flags : Nat
  crc32 : Nat
  compressed_size : Nat
  uncompressed_size : Nat
deriving DecidableEq

/-- Modelled from the spec: general-purpose flag bit 3 means the entry has a
trailing data descriptor. -/
def LocalFileHeaderRecord.hasDataDescriptor (h : LocalFileHeaderRecord) : Bool :=
  h.flags.testBit 3

/-- Modelled from the spec: DataDescriptorRecord, the optional trailer after
the payload carrying CRC-32 and sizes. -/
structure DataDescriptorRecord where
  crc32 : Nat
  compressed_size : Nat
  uncompressed_size : Nat
deriving DecidableEq

/-- Metrics accumulated while streaming an entry: observed uncompressed byte
count and finalized CRC-32. -/
structure EntryReadMetrics where
  uncompressed_size : Nat
  crc32 : Nat
deriving DecidableEq

/-- The CRC-32 hasher state, modelled as the sequence of bytes fed so far
(the external crc32fast hasher is a pure function of that sequence). -/
abbrev Hasher := List Byte

/-- A fresh hasher has seen no bytes. -/
def Hasher.new : Hasher := []

/-- Feeding bytes to the hasher appends them to the seen sequence. -/
def Hasher.update (h : Hasher) (bs : List Byte) : Hasher := h ++ bs

/-- One round of the reflected CRC-32 polynomial division. -/
def crc32Round (c : Nat) : Nat :=
  if c % 2 = 1 then (c / 2) ^^^ 0xEDB88320 else c / 2

/-- Iterated polynomial rounds. -/
def crc32Rounds : Nat → Nat → Nat
  | 0, c => c
  | k + 1, c => crc32Rounds k (crc32Round c)

/-- Absorb one byte into the running CRC-32 state. -/
def crc32UpdateByte (c b : Nat) : Nat := crc32Rounds 8 (c ^^^ (b % 256))

/-- Modelled from the spec: finalize computes the standard reflected CRC-32
of all bytes fed to the hasher. -/
def Hasher.finalize (h : Hasher) : Nat :=
  (h.foldl crc32UpdateByte 0xFFFFFFFF) ^^^ 0xFFFFFFFF

/-- The raw-entry byte limiter: wraps the buffer and only allows reading a
fixed number of payload bytes out of it (rc-zip-sync/src/decoder.rs). -/
structure RawEntryReader where
  remaining : Nat
  inner : Buffer
deriving DecidableEq

/-- Constructor: the limiter starts with remaining set to the entry size. -/
def RawEntryReader.new (inner : Buffer) (entry_size : Nat) : RawEntryReader :=
  { remaining := entry_size, inner := inner }

/-- Moves the wrapped buffer back out of the limiter. -/
def RawEntryReader.into_inner (r : RawEntryReader) : Buffer := r.inner

/-- The Read impl of the limiter: clamp the requested length to remaining,
read that many bytes out of the buffer data region, and decrease remaining
by the byte count actually produced. -/
def RawEntryReader.read (r : RawEntryReader) (bufLen : Nat) : List Byte × RawEntryReader :=
  let len := min bufLen r.remaining
  let res := r.inner.readInto len
  (res.1, { remaining := r.remaining - res.1.length, inner := res.2 })

/-- Total payload bytes yielded over a whole sequence of read calls. -/
def RawEntryReader.readAll (r : RawEntryReader) : List Nat → Nat
  | [] => 0
  | len :: rest =>
    let res := r.read len
    res.1.length + res.2.readAll rest

/-- A synchronous reader model: given a state and a maximum byte count, a
read either fails with an I/O error or returns the bytes obtained together
with the successor state. -/
abbrev ReaderM (ρ : Type) := ρ → Nat → Except IOError (List Byte × ρ)

/-- The Store decoder: a wrapper holding its inner reader
(rc-zip-sync/src/decoder.rs, StoreDecoder). -/
structure StoreDecoder (ρ : Type) where
  inner : ρ
deriving DecidableEq

/-- Constructor for the Store decoder. -/
def StoreDecoder.new {ρ : Type} (inner : ρ) : StoreDecoder ρ := ⟨inner⟩

/-- Moves the inner reader out of the Store decoder. -/
def StoreDecoder.into_inner {ρ : Type} (d : StoreDecoder ρ) : ρ := d.inner

/-- The Read impl of the Store decoder: delegate directly to the inner
reader, threading state and propagating any error. -/
def StoreDecoder.read {ρ : Type} (readInner : ReaderM ρ) (d : StoreDecoder ρ)
    (len : Nat) : Except IOError (List Byte × StoreDecoder ρ) :=
  match readInner d.inner len with
  | .error e => .error e
  | .ok (out, s) => .ok (out, ⟨s⟩)

/-- Run a sequence of reads against a reader, collecting the produced
chunks; stop at the first error. -/
def runReads {ρ : Type} (rd : ReaderM ρ) (s : ρ) :
    List Nat → Except IOError (List (List Byte) × ρ)
  | [] => .ok ([], s)
  | len :: rest =>
    match rd s len with
    | .error e => .error e
    | .ok (out, s1) =>
      match runReads rd s1 rest with
      | .error e => .error e
      | .ok (outs, s2) => .ok (out :: outs, s2)

/-- Observable part of a run: the chunks produced, or the error. -/
def runOuts {ρ : Type} (rd : ReaderM ρ) (s : ρ) (lens : List Nat) :
    Except IOError (List (List Byte)) :=
  Except.map (fun p => p.1) (runReads rd s lens)

/-- The entry-decoding state machine states
(src/reader/tokio/entry_reader/mod.rs). Only the Store codec is registered
in this crate, so the boxed decoder of ReadData is a Store decoder over the
raw-entry limiter. -/
inductive State where
  | readLocalHeader (buffer : Buffer)
  | readData (hasher : Hasher) (uncompressed_size : Nat)
      (header : LocalFileHeaderRecord) (decoder : StoreDecoder RawEntryReader)
  | readDataDescriptor (metrics : EntryReadMetrics)
      (header : LocalFileHeaderRecord) (buffer : Buffer)
  | validate (metrics : EntryReadMetrics) (header : LocalFileHeaderRecord)
      (descriptor : Option DataDescriptorRecord)
  | done
deriving DecidableEq

/-- The refill phase at the top of the ReadData arm: when eof has not been
seen and the limiter buffer holds no data, shift it if it has no space and
issue one upstream read; a zero-length result sets the eof flag, a
non-empty chunk is filled into the buffer, and an upstream error
propagates. The Bool in the result records whether an upstream read was
issued. -/
def refillStep (eof : Bool) (buffer : Buffer)
    (upstream : Except IOError (List Byte)) :
    Except IOError (Bool × Buffer × Bool) :=
  if eof = false ∧ buffer.availableData = 0 then
    let b1 := if buffer.availableSpace = 0 then buffer.shift else buffer
    match upstream with
    | .error e => .error e
    | .ok [] => .ok (true, b1, true)
    | .ok chunk => .ok (eof, b1.fill chunk, true)
  else
    .ok (eof, buffer, false)

/-- Number of upstream reads issued over a whole sequence of refill polls,
each poll consuming the next upstream result when it reads. -/
def refillRun (eof : Bool) (b : Buffer) :
    List (Except IOError (List Byte)) → Nat
  | [] => 0
  | u :: us =>
    match refillStep eof b u with
    | .error _ => 1
    | .ok (e1, b1, did) => (if did then 1 else 0) + refillRun e1 b1 us

/-- The ReadData arm after the codec wrote a positive number of bytes: the
caller output already held the pre bytes, the codec appended the written
bytes; the code adds their count to the 64-bit counter and updates the
hasher with the first n bytes of the whole filled output. -/
def readDataAdvance (hasher : Hasher) (uncompressed_size : Nat)
    (pre written : List Byte) : Hasher × Nat :=
  let filled := pre ++ written
  let filled_before := pre.length
  let filled_after := filled.length
  let n := filled_after - filled_before
  (hasher.update (filled.take n), (uncompressed_size + n) % 2 ^ 64)

/-- The ReadData arm when the codec wrote zero bytes: reclaim the limiter
from the decoder and the buffer from the limiter, finalize the metrics, and
transition to ReadDataDescriptor when flag bit 3 is set, otherwise to
Validate with no descriptor. -/
def readDataFinish (hasher : Hasher) (uncompressed_size : Nat)
    (header : LocalFileHeaderRecord)
    (decoder : StoreDecoder RawEntryReader) : State :=
  let limited_reader := decoder.into_inner
  let buffer := limited_reader.into_inner
  let metrics : EntryReadMetrics :=
    { uncompressed_size := uncompressed_size, crc32 := hasher.finalize }
  if header.hasDataDescriptor then
    .readDataDescriptor metrics header buffer
  else
    .validate metrics header none

/-- Expected CRC-32 in the Validate arm: the central-directory value when
non-zero, else the descriptor value when present, else the local header
value. -/
def expectedCrc32 (inner : StoredEntryInner) (header : LocalFileHeaderRecord)
    (descriptor : Option DataDescriptorRecord) : Nat :=
  if inner.crc32 ≠ 0 then inner.crc32
  else
    match descriptor with
    | some d => d.crc32
    | none => header.crc32

/-- Expected uncompressed size in the Validate arm, chosen by the same
precedence as the expected CRC-32. -/
def expectedSize (inner : StoredEntryInner) (header : LocalFileHeaderRecord)
    (descriptor : Option DataDescriptorRecord) : Nat :=
  if inner.uncompressed_size ≠ 0 then inner.uncompressed_size
  else
    match descriptor with
    | some d => d.uncompressed_size
    | none => header.uncompressed_size

/-- The Validate arm: fail with WrongSize when the expected size differs
from the observed counter, else with WrongChecksum when the expected CRC-32
is non-zero and differs from the observed one, else move to Done. -/
def validateStep (inner : StoredEntryInner) (metrics : EntryReadMetrics)
    (header : LocalFileHeaderRecord)
    (descriptor : Option DataDescriptorRecord) : Except Error State :=
  if expectedSize inner header descriptor ≠ metrics.uncompressed_size then
    .error (.format (.wrongSize (expectedSize inner header descriptor)
      metrics.uncompressed_size))
  else if expectedCrc32 inner header descriptor ≠ 0 ∧
      expectedCrc32 inner header descriptor ≠ metrics.crc32 then
    .error (.format (.wrongChecksum (expectedCrc32 inner header descriptor)
      metrics.crc32))
  else
    .ok .done

/-- Decoder selection (EntryReader.get_decoder): method tag 0 is Store and
yields the Store decoder over the raw reader; every other method is
rejected with the unsupported error carrying the method tag. -/
def get_decoder (method : Nat) (raw_r : RawEntryReader) :
    Except Error (StoreDecoder RawEntryReader) :=
  if method = 0 then .ok (StoreDecoder.new raw_r)
  else .error (.unsupported method)

/-- The transition out of ReadLocalHeader after a successful header parse:
build the limiter bounded by the compressed size, instantiate the decoder
for the method (which can fail with unsupported), and enter ReadData with a
fresh hasher and zero counter. -/
def readLocalHeaderTransition (method : Nat) (inner : StoredEntryInner)
    (buffer : Buffer) (header : LocalFileHeaderRecord) : Except Error State :=
  match get_decoder method (RawEntryReader.new buffer inner.compressed_size) with
  | .error e => .error e
  | .ok decoder => .ok (.readData Hasher.new 0 header decoder)

/-- The Done arm of the FSM: a poll returns success, writes no bytes, and
the state stays Done. -/
def doneStep : Except Error (List Byte × State) := .ok ([], .done)

/-- Repeatedly polling the FSM in the Done state. -/
def doneSeq : Nat → List (Except Error (List Byte × State))
  | 0 => []
  | k + 1 => doneStep :: doneSeq k

/-- The driver poll (rc-zip-tokio/src/entry_reader.rs): the FSM is taken out
of an Option; when it has already been consumed the poll returns success
with no bytes, otherwise the FSM is processed. -/
def driverPollRead {α : Type} (p : α → Except Error (List Byte × Option α))
    (fsm : Option α) : Except Error (List Byte × Option α) :=
  match fsm with
  | none => .ok ([], none)
  | some f => p f

/-- Iterate the driver poll, threading the FSM option; on an error the FSM
has already been taken and dropped, so later polls see none. -/
def driverRun {α : Type} (p : α → Except Error (List Byte × Option α)) :
    Option α → Nat → List (Except Error (List Byte × Option α)) × Option α
  | fsm, 0 => ([], fsm)
  | fsm, k + 1 =>
    match driverPollRead p fsm with
    | .ok (out, fsm1) =>
      let rest := driverRun p fsm1 k
      (.ok (out, fsm1) :: rest.1, rest.2)
    | .error e =>
      let rest := driverRun p none k
      (.error e :: rest.1, rest.2)

/-- Modelled from the spec: a central-directory entry as the ArchiveFSM
yields it; the compression method is carried as metadata, no ArchiveFSM
transition inspects it. -/
structure CdEntry where
  method : Nat
  header_offset : Nat
deriving DecidableEq

/-- A decoded central directory: an ordered sequence of entries. -/
structure Archive where
  entries : List CdEntry
deriving DecidableEq

/-- Modelled from the spec: the ArchiveFSM ReadCentralDirectory step parses
the central-directory headers back-to-back and transitions to Done yielding
the Archive; it validates structure only and never consults the
compression-method tag of an entry. -/
def archiveOpen (records : List CdEntry) : Except Error Archive :=
  .ok { entries := records }

/-- The sliceable-source cursor for byte slices and byte vectors
(rc-zip-sync/src/read_zip.rs): index the slice from offset onward; the
conversion of the u64 offset to usize unwraps, and the slice indexing
itself panics when offset exceeds the length. A none result models a
panic. -/
def cursor_at (usizeMax : Nat) (bytes : List Byte) (offset : Nat) :
    Option (List Byte) :=
  match (if offset ≤ usizeMax then some offset else none) with
  | none => none
  | some o => if o ≤ bytes.length then some (bytes.drop o) else none

/-- C1: the claim says the CRC-32 hasher is updated with exactly the n newly
written bytes at positions filled_before..filled_after of the output. The
code instead hashes the first n bytes of the whole filled output. At a poll
where the output already held one byte (value 1) and the codec wrote one
new byte (value 2), the counter is correctly advanced by 1 but the hasher
absorbs the stale byte 1 instead of the newly written byte 2. -/
theorem c1_hasher_stale_bytes :
    readDataAdvance Hasher.new 0 [1] [2] = ([1], 1) ∧
    Hasher.update Hasher.new [2] = [2] ∧ ([1] : List Byte) ≠ [2] := by
  decide

/-- C2: the expected CRC-32 of a validation is the central-directory value
when non-zero, else the data-descriptor value when a descriptor was parsed,
else the local-header value; the expected uncompressed size follows the
same precedence. These are the selectors used by the Validate arm. -/
theorem c2_expected_value_precedence :
    ∀ (inner : StoredEntryInner) (header : LocalFileHeaderRecord)
      (d : DataDescriptorRecord),
    (inner.crc32 ≠ 0 →
      ∀ desc, expectedCrc32 inner header desc = inner.crc32) ∧
    (inner.crc32 = 0 → expectedCrc32 inner header (some d) = d.crc32) ∧
    (inner.crc32 = 0 → expectedCrc32 inner header none = header.crc32) ∧
    (inner.uncompressed_size ≠ 0 →
      ∀ desc, expectedSize inner header desc = inner.uncompressed_size) ∧
    (inner.uncompressed_size = 0 →
      expectedSize inner header (some d) = d.uncompressed_size) ∧
    (inner.uncompressed_size = 0 →
      expectedSize inner header none = header.uncompressed_size) := by
  intro inner header d
  refine ⟨?_, ?_, ?_, ?_, ?_, ?_⟩ <;> intro h
  · intro desc; simp [expectedCrc32, h]
  · simp [expectedCrc32, h]
  · simp [expectedCrc32, h]
  · intro desc; simp [expectedSize, h]
  · simp [expectedSize, h]
  · simp [expectedSize, h]

/-- C2 witness: the six precedence cases evaluated at concrete records. -/
theorem c2_expected_value_precedence_witness :
    expectedCrc32 ⟨10, 20, 5, 0, false⟩ ⟨0, 7, 0, 3⟩ (some ⟨9, 1, 2⟩) = 5 ∧
    expectedCrc32 ⟨10, 20, 0, 0, false⟩ ⟨0, 7, 0, 3⟩ (some ⟨9, 1, 2⟩) = 9 ∧
    expectedCrc32 ⟨10, 20, 0, 0, false⟩ ⟨0, 7, 0, 3⟩ none = 7 ∧
    expectedSize ⟨10, 20, 5, 0, false⟩ ⟨0, 7, 0, 3⟩ (some ⟨9, 1, 2⟩) = 20 ∧
    expectedSize ⟨10, 0, 5, 0, false⟩ ⟨0, 7, 0, 3⟩ (some ⟨9, 1, 2⟩) = 2 ∧
    expectedSize ⟨10, 0, 5, 0, false⟩ ⟨0, 7, 0, 3⟩ none = 3 :=
  ⟨(c2_expected_value_precedence ⟨10, 20, 5, 0, false⟩ ⟨0, 7, 0, 3⟩
      ⟨9, 1, 2⟩).1 (by decide) (some ⟨9, 1, 2⟩),
   (c2_expected_value_precedence ⟨10, 20, 0, 0, false⟩ ⟨0, 7, 0, 3⟩
      ⟨9, 1, 2⟩).2.1 rfl,
   (c2_expected_value_precedence ⟨10, 20, 0, 0, false⟩ ⟨0, 7, 0, 3⟩
      ⟨9, 1, 2⟩).2.2.1 rfl,
   (c2_expected_value_precedence ⟨10, 20, 5, 0, false⟩ ⟨0, 7, 0, 3⟩
      ⟨9, 1, 2⟩).2.2.2.1 (by decide) (some ⟨9, 1, 2⟩),
   (c2_expected_value_precedence ⟨10, 0, 5, 0, false⟩ ⟨0, 7, 0, 3⟩
      ⟨9, 1, 2⟩).2.2.2.2.1 rfl,
   (c2_expected_value_precedence ⟨10, 0, 5, 0, false⟩ ⟨0, 7, 0, 3⟩
      ⟨9, 1, 2⟩).2.2.2.2.2 rfl⟩

/-- C3: the Validate arm checks the size first: any size mismatch yields
WrongSize regardless of the CRC values; with matching size, a non-zero
expected CRC-32 differing from the observed one yields WrongChecksum; a
zero expected CRC-32 is never reported as a mismatch, the step succeeds
whatever the observed CRC is. -/
theorem c3_validate_checks :
    ∀ (inner : StoredEntryInner) (metrics : EntryReadMetrics)
      (header : LocalFileHeaderRecord)
      (descriptor : Option DataDescriptorRecord),
    (expectedSize inner header descriptor ≠ metrics.uncompressed_size →
      validateStep inner metrics header descriptor =
        .error (.format (.wrongSize (expectedSize inner header descriptor)
          metrics.uncompressed_size))) ∧
    (expectedSize inner header descriptor = metrics.uncompressed_size →
      expectedCrc32 inner header descriptor ≠ 0 →
      expectedCrc32 inner header descriptor ≠ metrics.crc32 →
      validateStep inner metrics header descriptor =
        .error (.format (.wrongChecksum (expectedCrc32 inner header descriptor)
          metrics.crc32))) ∧
    (expectedSize inner header descriptor = metrics.uncompressed_size →
      expectedCrc32 inner header descriptor = 0 →
      validateStep inner metrics header descriptor = .ok .done) ∧
    (expectedSize inner header descriptor = metrics.uncompressed_size →
      expectedCrc32 inner header descriptor = metrics.crc32 →
      validateStep inner metrics header descriptor = .ok .done) := by
  intro inner metrics header descriptor
  refine ⟨?_, ?_, ?_, ?_⟩
  · intro h; simp [validateStep, h]
  · intro h1 h2 h3; simp [validateStep, h1, h2, h3]
  · intro h1 h2; simp [validateStep, h1, h2]
  · intro h1 h2; simp [validateStep, h1, h2]

/-- C3 witness: a size mismatch with a CRC mismatch still reports WrongSize;
a checksum mismatch with matching size reports WrongChecksum; a zero
expected CRC-32 passes validation despite a non-zero observed CRC-32. -/
theorem c3_validate_checks_witness :
    validateStep ⟨0, 5, 8, 0, false⟩ ⟨3, 9⟩ ⟨0, 0, 0, 0⟩ none =
      .error (.format (.wrongSize 5 3)) ∧
    validateStep ⟨0, 3, 7, 0, false⟩ ⟨3, 9⟩ ⟨0, 0, 0, 0⟩ none =
      .error (.format (.wrongChecksum 7 9)) ∧
    validateStep ⟨0, 3, 0, 0, false⟩ ⟨3, 42⟩ ⟨0, 0, 0, 0⟩ none = .ok .done :=
  ⟨(c3_validate_checks ⟨0, 5, 8, 0, false⟩ ⟨3, 9⟩ ⟨0, 0, 0, 0⟩ none).1
      (by decide),
   (c3_validate_checks ⟨0, 3, 7, 0, false⟩ ⟨3, 9⟩ ⟨0, 0, 0, 0⟩ none).2.1
      (by decide) (by decide) (by decide),
   (c3_validate_checks ⟨0, 3, 0, 0, false⟩ ⟨3, 42⟩ ⟨0, 0, 0, 0⟩ none).2.2.1
      (by decide) (by decide)⟩

/-- C4: when the codec reports zero bytes written, the exit from ReadData is
decided by local-header flag bit 3: set means ReadDataDescriptor, clear
means Validate with no descriptor; in both branches the buffer placed into
(or dropped by) the next state is reclaimed through the into_inner chain
and is exactly the buffer wrapped by the codec, bytes past the payload
included. -/
theorem c4_read_data_exit_transition :
    ∀ (hasher : Hasher) (n : Nat) (header : LocalFileHeaderRecord)
      (decoder : StoreDecoder RawEntryReader),
    (header.hasDataDescriptor = true →
      readDataFinish hasher n header decoder =
        .readDataDescriptor ⟨n, hasher.finalize⟩ header
          decoder.into_inner.into_inner) ∧
    (header.hasDataDescriptor = false →
      readDataFinish hasher n header decoder =
        .validate ⟨n, hasher.finalize⟩ header none) ∧
    decoder.into_inner.into_inner = decoder.inner.inner := by
  intro hasher n header decoder
  refine ⟨?_, ?_, rfl⟩ <;> intro h <;>
    simp [readDataFinish, h, StoreDecoder.into_inner, RawEntryReader.into_inner]

/-- C4 witness: with flag bit 3 set (flags = 8) the next state is
ReadDataDescriptor carrying the codec buffer verbatim, leftover descriptor
bytes included; with flags = 0 the next state is Validate with no
descriptor. -/
theorem c4_read_data_exit_transition_witness :
    readDataFinish Hasher.new 0 ⟨8, 0, 6, 6⟩
        (StoreDecoder.new (RawEntryReader.new ⟨16, 2, [80, 75, 7, 8]⟩ 0)) =
      .readDataDescriptor ⟨0, Hasher.new.finalize⟩ ⟨8, 0, 6, 6⟩
        ⟨16, 2, [80, 75, 7, 8]⟩ ∧
    readDataFinish Hasher.new 0 ⟨0, 0, 6, 6⟩
        (StoreDecoder.new (RawEntryReader.new ⟨16, 2, [80, 75, 7, 8]⟩ 0)) =
      .validate ⟨0, Hasher.new.finalize⟩ ⟨0, 0, 6, 6⟩ none :=
  ⟨(c4_read_data_exit_transition Hasher.new 0 ⟨8, 0, 6, 6⟩
      (StoreDecoder.new (RawEntryReader.new ⟨16, 2, [80, 75, 7, 8]⟩ 0))).1
      (by decide),
   (c4_read_data_exit_transition Hasher.new 0 ⟨0, 0, 6, 6⟩
      (StoreDecoder.new (RawEntryReader.new ⟨16, 2, [80, 75, 7, 8]⟩ 0))).2.1
      (by decide)⟩

lemma rawRead_length (r : RawEntryReader) (bufLen : Nat) :
    (r.read bufLen).1.length = min (min bufLen r.remaining) r.inner.data.length := by
  simp [RawEntryReader.read, Buffer.readInto, Buffer.availableData]

lemma readAll_le (lens : List Nat) :
    ∀ r : RawEntryReader, r.readAll lens ≤ r.remaining := by
  induction lens with
  | nil => intro r; simp [RawEntryReader.readAll]
  | cons len rest ih =>
    intro r
    have h1 := rawRead_length r len
    have h3 : (r.read len).2.remaining =
        r.remaining - (r.read len).1.length := rfl
    have h4 := ih (r.read len).2
    simp only [RawEntryReader.readAll]
    omega

/-- C5: one read on the raw-entry limiter yields at most
min(caller_len, remaining) bytes, those bytes are a prefix of the wrapped
buffer data region, remaining decreases by exactly the byte count yielded,
and over any sequence of reads the limiter never yields more than remaining
bytes in total, hence never more than the entry_size it was built with. -/
theorem c5_raw_entry_reader_limits :
    ∀ (r : RawEntryReader) (bufLen : Nat) (lens : List Nat) (b : Buffer)
      (entry_size : Nat),
    (r.read bufLen).1.length ≤ min bufLen r.remaining ∧
    (r.read bufLen).1 = r.inner.data.take ((r.read bufLen).1.length) ∧
    (r.read bufLen).2.remaining + (r.read bufLen).1.length = r.remaining ∧
    r.readAll lens ≤ r.remaining ∧
    (RawEntryReader.new b entry_size).readAll lens ≤ entry_size := by
  intro r bufLen lens b entry_size
  have h1 := rawRead_length r bufLen
  have h3 : (r.read bufLen).2.remaining =
      r.remaining - (r.read bufLen).1.length := rfl
  refine ⟨by omega, ?_, by omega, readAll_le lens r, ?_⟩
  · rw [h1]
    rfl
  · exact readAll_le lens (RawEntryReader.new b entry_size)

lemma refillRun_eof (ups : List (Except IOError (List Byte))) :
    ∀ b : Buffer, refillRun true b ups = 0 := by
  induction ups with
  | nil => intro b; rfl
  | cons u us ih =>
    intro b
    have hs : refillStep true b u = .ok (true, b, false) := by
      simp [refillStep]
    simp only [refillRun]
    rw [hs]
    simp [ih b]

/-- C6: in the ReadData refill phase an upstream read is issued exactly when
the eof flag is clear and the limiter buffer has no available data (the
step leaves the state untouched otherwise), the buffer is shifted first
when it has no available space, a zero-byte upstream read sets eof without
raising an error, shifting preserves the buffered data, a non-empty chunk
is filled into the buffer with eof left clear, and once eof is true no
upstream read is ever issued again in ReadData. -/
theorem c6_read_data_refill :
    ∀ (eof : Bool) (b : Buffer) (u : Except IOError (List Byte)) (c : Byte)
      (chunk : List Byte) (ups : List (Except IOError (List Byte))),
    ((eof = true ∨ b.availableData ≠ 0) →
      refillStep eof b u = .ok (eof, b, false)) ∧
    (eof = false → b.availableData = 0 →
      refillStep eof b (.ok []) =
        .ok (true, if b.availableSpace = 0 then b.shift else b, true)) ∧
    (if b.availableSpace = 0 then b.shift else b).data = b.data ∧
    (eof = false → b.availableData = 0 →
      refillStep eof b (.ok (c :: chunk)) =
        .ok (false, (if b.availableSpace = 0 then b.shift else b).fill
          (c :: chunk), true)) ∧
    refillRun true b ups = 0 := by
  intro eof b u c chunk ups
  refine ⟨?_, ?_, ?_, ?_, refillRun_eof ups b⟩
  · rintro (h | h)
    · simp [refillStep, h]
    · simp [refillStep, h]
  · intro h1 h2
    simp [refillStep, h1, h2]
  · by_cases h : b.availableSpace = 0 <;> simp [h, Buffer.shift]
  · intro h1 h2
    simp [refillStep, h1, h2]

/-- C6 witness: with eof clear and an empty data region the zero-byte read
sets eof without error; with eof already set the step touches nothing and
issues no read; a whole run started with eof set issues zero reads. -/
theorem c6_read_data_refill_witness :
    refillStep false ⟨4, 0, []⟩ (.ok []) = .ok (true, ⟨4, 0, []⟩, true) ∧
    refillStep true ⟨4, 0, [3]⟩ (.ok [5]) = .ok (true, ⟨4, 0, [3]⟩, false) ∧
    refillRun true ⟨4, 0, []⟩ [.ok [1], .ok [2]] = 0 :=
  ⟨(c6_read_data_refill false ⟨4, 0, []⟩ (.ok []) 0 [] []).2.1 rfl rfl,
   (c6_read_data_refill true ⟨4, 0, [3]⟩ (.ok [5]) 0 [] []).1 (Or.inl rfl),
   (c6_read_data_refill true ⟨4, 0, []⟩ (.ok []) 0 []
      [.ok [1], .ok [2]]).2.2.2.2⟩

lemma runReads_store {ρ : Type} (rd : ReaderM ρ) (lens : List Nat) :
    ∀ s : ρ,
    runReads (StoreDecoder.read rd) (StoreDecoder.new s) lens =
      match runReads rd s lens with
      | .error e => .error e
      | .ok (outs, s2) => .ok (outs, StoreDecoder.new s2) := by
  induction lens with
  | nil => intro s; rfl
  | cons len rest ih =>
    intro s
    simp only [runReads]
    cases h : rd s len with
    | error e => simp [StoreDecoder.read, StoreDecoder.new, h]
    | ok p =>
      obtain ⟨out, s1⟩ := p
      simp only [StoreDecoder.read, StoreDecoder.new, h]
      have ih1 := ih s1
      simp only [StoreDecoder.new] at ih1
      rw [ih1]
      cases hr : runReads rd s1 rest with
      | error e => simp
      | ok q =>
        obtain ⟨outs, s2⟩ := q
        simp [StoreDecoder.new]

/-- C7: the Store codec is the identity pass-through: a single read through
the Store decoder produces exactly the bytes the inner reader produced (or
the same error, unchanged), and over any sequence of reads the observable
chunks of the composition equal those of the inner reader alone. -/
theorem c7_store_codec_identity :
    ∀ (ρ : Type) (rd : ReaderM ρ) (s : ρ) (len : Nat) (lens : List Nat),
    Except.map Prod.fst (StoreDecoder.read rd (StoreDecoder.new s) len) =
      Except.map Prod.fst (rd s len) ∧
    runOuts (StoreDecoder.read rd) (StoreDecoder.new s) lens =
      runOuts rd s lens := by
  intro ρ rd s len lens
  constructor
  · cases h : rd s len with
    | error e => simp [StoreDecoder.read, StoreDecoder.new, h, Except.map]
    | ok p =>
      obtain ⟨out, s1⟩ := p
      simp [StoreDecoder.read, StoreDecoder.new, h, Except.map]
  · rw [runOuts, runOuts, runReads_store rd lens s]
    cases hr : runReads rd s lens with
    | error e => simp [Except.map]
    | ok q =>
      obtain ⟨outs, s2⟩ := q
      simp [Except.map]

/-- C8: opening an archive never inspects the compression method (the
ArchiveFSM yields the entry list as parsed), while the transition out of
ReadLocalHeader instantiates the decoder for the method and fails with the
unsupported error carrying the method tag for every method other than
Store; so the error surfaces at entry decode start, not at archive open. -/
theorem c8_unsupported_method_at_decode_start :
    ∀ (method : Nat) (inner : StoredEntryInner) (buffer : Buffer)
      (header : LocalFileHeaderRecord) (records : List CdEntry),
    method ≠ 0 →
    archiveOpen records = .ok { entries := records } ∧
    get_decoder method (RawEntryReader.new buffer inner.compressed_size) =
      .error (.unsupported method) ∧
    readLocalHeaderTransition method inner buffer header =
      .error (.unsupported method) := by
  intro method inner buffer header records h
  refine ⟨rfl, ?_, ?_⟩
  · simp [get_decoder, h]
  · simp [readLocalHeaderTransition, get_decoder, h]

/-- C8 witness: an archive listing one entry with method 8 (Deflate) opens
and lists fine, while starting to decode that entry fails with the
unsupported error for method 8. -/
theorem c8_unsupported_method_at_decode_start_witness :
    archiveOpen [⟨8, 0⟩] = .ok { entries := [⟨8, 0⟩] } ∧
    get_decoder 8 (RawEntryReader.new ⟨4, 0, []⟩ 6) =
      .error (.unsupported 8) ∧
    readLocalHeaderTransition 8 ⟨6, 6, 0, 0, false⟩ ⟨4, 0, []⟩ ⟨0, 0, 6, 6⟩ =
      .error (.unsupported 8) :=
  c8_unsupported_method_at_decode_start 8 ⟨6, 6, 0, 0, false⟩ ⟨4, 0, []⟩
    ⟨0, 0, 6, 6⟩ [⟨8, 0⟩] (by decide)

lemma driverRun_none {α : Type} (p : α → Except Error (List Byte × Option α)) :
    ∀ k, driverRun p none k = (List.replicate k (.ok ([], none)), none) := by
  intro k
  induction k with
  | zero => rfl
  | succ n ih =>
    simp [driverRun, driverPollRead, ih, List.replicate]

lemma doneSeq_replicate : ∀ k, doneSeq k = List.replicate k doneStep := by
  intro k
  induction k with
  | zero => rfl
  | succ n ih => simp [doneSeq, ih, List.replicate]

/-- C9: once the FSM is in Done (and, in the driver, once the FSM option has
been consumed to none), every further poll in any sequence of further polls
returns success with zero bytes written and the state stays put; no error
is ever produced. -/
theorem c9_done_reads_yield_zero :
    ∀ (α : Type) (p : α → Except Error (List Byte × Option α)) (k : Nat),
    driverRun p none k = (List.replicate k (.ok ([], none)), none) ∧
    doneSeq k = List.replicate k (.ok ([], State.done)) ∧
    doneStep = .ok ([], State.done) := by
  intro α p k
  refine ⟨driverRun_none p k, ?_, rfl⟩
  rw [doneSeq_replicate]
  rfl

/-- C10: for byte-slice and byte-vector sources, cursor_at returns the
suffix of the bytes starting at offset whenever offset is at most the
length, and panics (modelled as none) whenever offset exceeds the length;
the usize conversion cannot fail on an in-bounds offset because a slice
length always fits usize. -/
theorem c10_cursor_at_bounds :
    ∀ (usizeMax : Nat) (bytes : List Byte) (offset : Nat),
    bytes.length ≤ usizeMax →
    (offset ≤ bytes.length →
      cursor_at usizeMax bytes offset = some (bytes.drop offset)) ∧
    (bytes.length < offset → cursor_at usizeMax bytes offset = none) := by
  intro usizeMax bytes offset hlen
  constructor
  · intro h
    have h2 : offset ≤ usizeMax := le_trans h hlen
    simp [cursor_at, h, h2]
  · intro h
    by_cases h2 : offset ≤ usizeMax
    · have h3 : ¬ offset ≤ bytes.length := by omega
      simp [cursor_at, h2, h3]
    · simp [cursor_at, h2]

/-- C10 witness: an in-bounds offset yields the suffix; an offset past the
end panics. -/
theorem c10_cursor_at_bounds_witness :
    cursor_at 100 [1, 2, 3] 1 = some [2, 3] ∧
    cursor_at 100 [1, 2, 3] 5 = none :=
  ⟨(c10_cursor_at_bounds 100 [1, 2, 3] 1 (by decide)).1 (by decide),
   (c10_cursor_at_bounds 100 [1, 2, 3] 5 (by decide)).2 (by decide)⟩

end RcZip
